import Mathlib

/-!
Verification development for the local service supervisor daemon
(`services/service_daemon.py`).

The embedding below is a shallow model of the daemon's supervisor core:
the supervisor state record (`DaemonState`, mirroring the Python class
`DaemonState`), the lease-registry HTTP handlers (`Handler.do_POST`
branches for `/lease/acquire`, `/lease/heartbeat`, `/lease/release`,
`/ensure`), the ensure pipeline (`_ensure_all` plus the worker closure),
the idle reaper tick (`_reaper_thread` body), the stop helpers
(`_stop_stt`, `_stop_kokoro`, `_stop_ollama`), the HTTP helper
(`_http_json`) and the health probes, and the lease-id generator.

Modelling conventions:
* Python `time.monotonic()` / `time.time()` float instants are modelled
  as integers (think milliseconds); only orderings and differences matter.
* JSON values are the inductive `J`; an HTTP response is a status code
  plus a `J` body, exactly the pairs passed to `_write_json`.
* External effects (child processes, docker compose, outbound HTTP) are
  modelled as data: outcome parameters (`PipeEnv`, `NetResult`) and
  emitted actions (`StopAction`), so that the daemon's decisions about
  them are the object of proof.
* The supervisor mutex serialises every handler and the reaper tick, so
  each critical section is modelled as one atomic state transition.
-/

/-- JSON values, as produced by the daemon's `_write_json` bodies. -/
inductive J where
  | null : J
  | bool : Bool → J
  | num : Int → J
  | str : String → J
  | arr : List J → J
  | obj : List (String × J) → J

/-- An HTTP response as passed to `_write_json handler code obj`. -/
structure Resp where
  code : Nat
  body : J

/-- A lease record (Python dataclass `Lease`): id, monotonic `last_seen`,
free-form metadata (modelled as string pairs; the daemon never reads it). -/
structure Lease where
  lease_id : String
  last_seen : Int
  meta : List (String × String)
deriving DecidableEq, Repr

/-- The process-wide supervisor state (Python class `DaemonState`).
Process handles (`stt_proc`, `ollama_proc`) are modelled as optional pids. -/
structure DaemonState where
  ensuring : Bool
  stage : String
  last_error : Option String
  leases : List (String × Lease)
  last_zero_lease_time : Int
  stt_proc : Option Nat
  ollama_proc : Option Nat
  ollama_managed : Bool
  warm_model : Option String
  warm_done : Bool
  shutdown_flag : Bool
deriving DecidableEq, Repr

/-- Initial supervisor state (`DaemonState.__init__`); the daemon starts
its monotonic clock at 0, so `last_zero_lease_time = 0`. -/
def initState : DaemonState :=
  { ensuring := false
    stage := "idle"
    last_error := none
    leases := []
    last_zero_lease_time := 0
    stt_proc := none
    ollama_proc := none
    ollama_managed := false
    warm_model := none
    warm_done := false
    shutdown_flag := false }

/-- Configuration derived from the environment (`DAEMON_IDLE_TIMEOUT_S`,
`DAEMON_LEASE_TTL_S`, `DAEMON_HEARTBEAT_S`, defaults 25 / 15 / 5). -/
structure Cfg where
  idle_timeout_s : Int
  lease_ttl_s : Int
  heartbeat_s : Int
deriving DecidableEq, Repr

/-- Dictionary lookup on the lease map (`STATE.leases.get(lease_id)`). -/
def lookupLease (id : String) : List (String × Lease) → Option Lease
  | [] => none
  | (k, v) :: rest => if k = id then some v else lookupLease id rest

/-- Dictionary insertion on the lease map
(`STATE.leases[lease_id] = Lease(...)`): overwrite in place, else append. -/
def insertLease (id : String) (l : Lease) : List (String × Lease) → List (String × Lease)
  | [] => [(id, l)]
  | (k, v) :: rest => if k = id then (id, l) :: rest else (k, v) :: insertLease id l rest

/-- Response `{"ok": True}` (heartbeat and release success). -/
def respOk : Resp := ⟨200, J.obj [("ok", J.bool true)]⟩

/-- Response `400 {"ok": False, "error": "missing_lease_id"}`. -/
def respMissingLease : Resp := ⟨400, J.obj [("ok", J.bool false), ("error", J.str "missing_lease_id")]⟩

/-- Response `404 {"ok": False, "error": "unknown_lease"}`. -/
def respUnknownLease : Resp := ⟨404, J.obj [("ok", J.bool false), ("error", J.str "unknown_lease")]⟩

/-- Response `404 {"ok": False, "error": "not_found"}`. -/
def respNotFound : Resp := ⟨404, J.obj [("ok", J.bool false), ("error", J.str "not_found")]⟩

/-- Response `202 {"ok": True, "ensuring": True}` (both `/ensure` outcomes). -/
def respAccepted : Resp := ⟨202, J.obj [("ok", J.bool true), ("ensuring", J.bool true)]⟩

/-- The `/lease/acquire` branch of `Handler.do_POST`: insert a fresh lease
with `last_seen := now`, reset `last_zero_lease_time := now`, answer 200.
The caller supplies the generated `lease_id` (see `leaseIdChars`). -/
def leaseAcquirePost (cfg : Cfg) (now : Int) (lease_id : String)
    (meta : List (String × String)) (s : DaemonState) : DaemonState × Resp :=
  ({ s with
      leases := insertLease lease_id ⟨lease_id, now, meta⟩ s.leases
      last_zero_lease_time := now },
   ⟨200, J.obj [("ok", J.bool true), ("lease_id", J.str lease_id),
                ("heartbeat_s", J.num cfg.heartbeat_s), ("lease_ttl_s", J.num cfg.lease_ttl_s)]⟩)

/-- The `/lease/heartbeat` branch of `Handler.do_POST`: empty id → 400;
unknown id → 404 and no state change; known id → set its `last_seen := now`. -/
def leaseHeartbeatPost (now : Int) (lease_id : String) (s : DaemonState) : DaemonState × Resp :=
  if lease_id = "" then (s, respMissingLease)
  else
    match lookupLease lease_id s.leases with
    | none => (s, respUnknownLease)
    | some _ =>
        ({ s with
            leases := s.leases.map (fun kv =>
              if kv.1 = lease_id then (kv.1, { kv.2 with last_seen := now }) else kv) },
         respOk)

/-- The `/lease/release` branch of `Handler.do_POST`: empty id → 400; else
`leases.pop(lease_id, None)`, and if the map is now empty set
`last_zero_lease_time := now`; always answer 200 `{"ok": True}`. -/
def leaseReleasePost (now : Int) (lease_id : String) (s : DaemonState) : DaemonState × Resp :=
  if lease_id = "" then (s, respMissingLease)
  else
    let kept := s.leases.filter (fun kv => kv.1 ≠ lease_id)
    if kept.length = 0 then
      ({ s with leases := kept, last_zero_lease_time := now }, respOk)
    else
      ({ s with leases := kept }, respOk)

/-- The `/ensure` branch of `Handler.do_POST`, the part under the lock:
if `ensuring` is already set, answer 202 and change nothing; otherwise
test-and-set `ensuring`, clear `last_error`, set `stage := "starting"` and
start the worker thread. The boolean records whether a worker was started. -/
def ensurePost (s : DaemonState) : DaemonState × Resp × Bool :=
  if s.ensuring then (s, respAccepted, false)
  else ({ s with ensuring := true, last_error := none, stage := "starting" }, respAccepted, true)

/-- Outcome of one effectful pipeline step: success, or the message of the
exception the step raises. -/
inductive StepOutcome where
  | ok : StepOutcome
  | error : String → StepOutcome
deriving DecidableEq, Repr

/-- Outcomes of the four effectful pipeline steps (`_ensure_ollama_server`,
`_ensure_stt`, `_ensure_kokoro`, `_ollama_warm`). -/
structure PipeEnv where
  ollamaServer : StepOutcome
  stt : StepOutcome
  kokoro : StepOutcome
  warm : StepOutcome
deriving DecidableEq, Repr

/-- Result of running `_ensure_all`: the state it leaves behind, the
sequence of `set_stage` writes it performed, and the raised error, if any. -/
structure PipeResult where
  state : DaemonState
  stages : List String
  err : Option String
deriving DecidableEq

/-- The ensure pipeline `_ensure_all(model)`: stage `ensure:ollama_server`
then the LLM-server step, stage `ensure:stt` then the STT step, stage
`ensure:kokoro` then the TTS step; then unconditionally `warm_model := model`
and `warm_done := False`; if a model was requested, stage `ensure:ollama_warm`,
the warm step and on success `warm_done := True`; finally stage `ready`.
An exception aborts the sequence at the failing step. -/
def ensure_all (env : PipeEnv) (model : Option String) (s : DaemonState) : PipeResult :=
  let s1 := { s with stage := "ensure:ollama_server" }
  match env.ollamaServer with
  | .error e => ⟨s1, ["ensure:ollama_server"], some e⟩
  | .ok =>
  let s2 := { s1 with stage := "ensure:stt" }
  match env.stt with
  | .error e => ⟨s2, ["ensure:ollama_server", "ensure:stt"], some e⟩
  | .ok =>
  let s3 := { s2 with stage := "ensure:kokoro" }
  match env.kokoro with
  | .error e => ⟨s3, ["ensure:ollama_server", "ensure:stt", "ensure:kokoro"], some e⟩
  | .ok =>
  let s4 := { s3 with warm_model := model, warm_done := false }
  match model with
  | none =>
      ⟨{ s4 with stage := "ready" },
       ["ensure:ollama_server", "ensure:stt", "ensure:kokoro", "ready"], none⟩
  | some _ =>
      let s5 := { s4 with stage := "ensure:ollama_warm" }
      match env.warm with
      | .error e =>
          ⟨s5, ["ensure:ollama_server", "ensure:stt", "ensure:kokoro", "ensure:ollama_warm"], some e⟩
      | .ok =>
          ⟨{ s5 with warm_done := true, stage := "ready" },
           ["ensure:ollama_server", "ensure:stt", "ensure:kokoro", "ensure:ollama_warm", "ready"],
           none⟩

/-- The worker closure inside the `/ensure` handler: run `_ensure_all`;
on an exception set `last_error` to its message and `stage := "error"`;
in all cases finally clear `ensuring`. -/
def ensureWorker (env : PipeEnv) (model : Option String) (s : DaemonState) : DaemonState :=
  let r := ensure_all env model s
  match r.err with
  | some e => { r.state with last_error := some e, stage := "error", ensuring := false }
  | none => { r.state with ensuring := false }

/-- Effects the teardown code requests from the outside world: an LLM model
unload (`_ollama_unload`), terminating the spawned STT child, running
`docker compose ... stop` for Kokoro, terminating the spawned Ollama child. -/
inductive StopAction where
  | unloadModel : String → StopAction
  | terminateStt : Nat → StopAction
  | composeStop : StopAction
  | terminateOllama : Nat → StopAction
deriving DecidableEq, Repr

/-- The stop helper `_stop_stt`: take and clear `stt_proc`; terminate the
child only when a handle was present. -/
def stop_stt (s : DaemonState) : DaemonState × List StopAction :=
  match s.stt_proc with
  | none => ({ s with stt_proc := none }, [])
  | some pid => ({ s with stt_proc := none }, [.terminateStt pid])

/-- The stop helper `_stop_kokoro`: if a compose binary is on PATH, run
`compose -f <file> stop` — unconditionally, with no ownership check. -/
def stop_kokoro (composePresent : Bool) (s : DaemonState) : DaemonState × List StopAction :=
  if composePresent then (s, [.composeStop]) else (s, [])

/-- The stop helper `_stop_ollama`: a no-op unless `ollama_managed`; else
clear the handle and the flag and terminate the child if one was held. -/
def stop_ollama (s : DaemonState) : DaemonState × List StopAction :=
  if s.ollama_managed then
    match s.ollama_proc with
    | none => ({ s with ollama_proc := none, ollama_managed := false }, [])
    | some pid => ({ s with ollama_proc := none, ollama_managed := false }, [.terminateOllama pid])
  else (s, [])

/-- The teardown sequence shared by the idle reaper (`do_shutdown` branch of
`_reaper_thread`) and process shutdown (`_shutdown`): unload the warm model
if one is set, then `_stop_stt`, `_stop_kokoro`, `_stop_ollama`. -/
def teardownStops (composePresent : Bool) (s : DaemonState) : DaemonState × List StopAction :=
  let u : List StopAction := match s.warm_model with
    | some m => [.unloadModel m]
    | none => []
  let r1 := stop_stt s
  let r2 := stop_kokoro composePresent r1.1
  let r3 := stop_ollama r2.1
  (r3.1, u ++ r1.2 ++ r2.2 ++ r3.2)

/-- Stale-lease expiry in one reaper tick: drop every lease with
`now - last_seen > lease_ttl_s` (strict, as in the source). -/
def expireStale (ttl : Int) (now : Int) (ls : List (String × Lease)) : List (String × Lease) :=
  ls.filter (fun kv => !(now - kv.2.last_seen > ttl))

/-- One reaper tick (`_reaper_thread` loop body, the part under the lock plus
the teardown decision): expire stale leases; with no lease left, tear down
when `now - last_zero_lease_time ≥ idle_timeout_s` (then reset that clock,
`stage := "idle"`, `warm_done := false`); with a live lease, reset
`last_zero_lease_time := now`. The boolean reports whether teardown ran. -/
def reaperTick (cfg : Cfg) (now : Int) (s : DaemonState) : DaemonState × Bool :=
  if (expireStale cfg.lease_ttl_s now s.leases).length = 0 then
    if now - s.last_zero_lease_time ≥ cfg.idle_timeout_s then
      ({ s with leases := expireStale cfg.lease_ttl_s now s.leases,
                last_zero_lease_time := now, stage := "idle", warm_done := false }, true)
    else ({ s with leases := expireStale cfg.lease_ttl_s now s.leases }, false)
  else
    ({ s with leases := expireStale cfg.lease_ttl_s now s.leases,
              last_zero_lease_time := now }, false)

/-- A registry-affecting event in the daemon's life, with its monotonic
instant: a `/lease/acquire`, `/lease/heartbeat` or `/lease/release` request,
or a reaper tick. -/
inductive DEvent where
  | acquire : String → Int → DEvent
  | heartbeat : String → Int → DEvent
  | release : String → Int → DEvent
  | tick : Int → DEvent
deriving DecidableEq, Repr

/-- The instant at which an event takes the supervisor mutex. -/
def evTime : DEvent → Int
  | .acquire _ t => t
  | .heartbeat _ t => t
  | .release _ t => t
  | .tick t => t

/-- A run of the daemon: the supervisor state plus the times of the
teardowns performed so far. -/
structure RunSt where
  ds : DaemonState
  teardowns : List Int
deriving DecidableEq, Repr

/-- The initial run state. -/
def initRun : RunSt := ⟨initState, []⟩

/-- Apply one event to a run: requests go through the corresponding
`do_POST` branch; a tick goes through `reaperTick` and records a teardown
time when one fires. The mutex serialises events, so a run is a fold. -/
def applyEv (cfg : Cfg) (r : RunSt) (e : DEvent) : RunSt :=
  match e with
  | .acquire id t => { r with ds := (leaseAcquirePost cfg t id [] r.ds).1 }
  | .heartbeat id t => { r with ds := (leaseHeartbeatPost t id r.ds).1 }
  | .release id t => { r with ds := (leaseReleasePost t id r.ds).1 }
  | .tick t =>
      let p := reaperTick cfg t r.ds
      { ds := p.1, teardowns := r.teardowns ++ (if p.2 then [t] else []) }

/-- Run a list of events from a given run state. -/
def runEvents (cfg : Cfg) (r : RunSt) (evs : List DEvent) : RunSt :=
  evs.foldl (applyEv cfg) r

/-- Events are time-sorted: HTTP handling and reaper ticks take the single
supervisor mutex, so the events of a run are linearly ordered and their
monotonic timestamps are nondecreasing along that order. -/
def TimeSorted (evs : List DEvent) : Prop :=
  evs.Pairwise (fun a b => evTime a ≤ evTime b)

/-- The possible outcomes of one outbound HTTP request made by
`_http_json`: a successful response (with its status and parsed JSON body,
`none` when the body is empty or unparsable), an `HTTPError` (with its code
and parsed error body, `none` when reading or parsing it fails), or any
other exception — `URLError`, timeout, refused connection, and so on. -/
inductive NetResult where
  | success : Nat → Option J → NetResult
  | httpError : Nat → Option J → NetResult
  | netError : NetResult

/-- The HTTP helper `_http_json`: total on every outcome — a success or an
`HTTPError` yields its status code with the best-effort body, and any other
exception yields `(0, None)`. No outcome escapes as an exception. -/
def httpJson : NetResult → Nat × Option J
  | .success st b => (st, b)
  | .httpError c b => (c, b)
  | .netError => (0, none)

/-- Whether a parsed body is a JSON object whose `"ok"` field is `True`
(`isinstance(body, dict) and body.get("ok") is True`). -/
def bodyOkTrue : Option J → Bool
  | some (J.obj fields) =>
      match fields.lookup "ok" with
      | some (J.bool true) => true
      | _ => false
  | _ => false

/-- Whether a parsed body is a JSON object containing a given field
(`isinstance(body, dict) and name in body`). -/
def bodyHasField (name : String) : Option J → Bool
  | some (J.obj fields) => (fields.lookup name).isSome
  | _ => false

/-- The STT health probe `_stt_running`: the health URL must answer 200
with a JSON object whose `ok` field is `True`. -/
def stt_running (r : NetResult) : Bool :=
  (httpJson r).1 == 200 && bodyOkTrue (httpJson r).2

/-- The TTS health probe `_kokoro_running`: the TCP port must accept, and
the voices URL must answer 200 with a JSON object holding a `voices` field. -/
def kokoro_running (tcpOpen : Bool) (r : NetResult) : Bool :=
  tcpOpen && ((httpJson r).1 == 200 && bodyHasField "voices" (httpJson r).2)

/-- The LLM health probe `_ollama_running`: the version URL must answer 200
with a JSON object holding a `version` field. -/
def ollama_running (r : NetResult) : Bool :=
  (httpJson r).1 == 200 && bodyHasField "version" (httpJson r).2

/-- The network-level inputs consumed by one `/status` request: one probe
outcome per managed service. -/
structure NetEnv where
  sttProbe : NetResult
  kokoroTcp : Bool
  kokoroProbe : NetResult
  ollamaProbe : NetResult

/-- The URL/path constants reported inside the status document
(`STT_HEALTH_URL`, `KOKORO_VOICES_URL`, `OLLAMA_API_BASE`,
`OLLAMA_KEEP_ALIVE`, `LOG_DIR`). -/
structure StatusCfg where
  sttHealthUrl : String
  kokoroVoicesUrl : String
  ollamaApiBase : String
  keepAlive : String
  logsDir : String

/-- The `/status` document built by `Handler.do_GET`. -/
def statusBody (cfg : Cfg) (sc : StatusCfg) (env : NetEnv) (s : DaemonState) : J :=
  J.obj
    [ ("ok", J.bool true)
    , ("leases", J.num s.leases.length)
    , ("ensuring", J.bool s.ensuring)
    , ("stage", J.str s.stage)
    , ("last_error", match s.last_error with | some e => J.str e | none => J.null)
    , ("idle_timeout_s", J.num cfg.idle_timeout_s)
    , ("lease_ttl_s", J.num cfg.lease_ttl_s)
    , ("services", J.obj
        [ ("stt", J.obj [("running", J.bool (stt_running env.sttProbe)),
                         ("health", J.str sc.sttHealthUrl)])
        , ("tts", J.obj [("running", J.bool (kokoro_running env.kokoroTcp env.kokoroProbe)),
                         ("voices_url", J.str sc.kokoroVoicesUrl)])
        , ("ollama", J.obj [("running", J.bool (ollama_running env.ollamaProbe)),
                            ("base_url", J.str sc.ollamaApiBase),
                            ("managed", J.bool s.ollama_managed)])
        ])
    , ("warm", J.obj [("model", match s.warm_model with | some m => J.str m | none => J.null),
                      ("done", J.bool s.warm_done),
                      ("keep_alive", J.str sc.keepAlive)])
    , ("logs", J.str sc.logsDir)
    ]

/-- The GET dispatcher `Handler.do_GET`: any path other than `/status` gets
404 `not_found`; `/status` always gets 200 with the status document. -/
def doGET (cfg : Cfg) (sc : StatusCfg) (env : NetEnv) (path : String) (s : DaemonState) : Resp :=
  if path ≠ "/status" then respNotFound
  else ⟨200, statusBody cfg sc env s⟩

/-- Decimal rendering of a natural number, character by character, as
Python's `str` produces it inside the lease-id f-string. -/
def pyStr (n : Nat) : List Char :=
  if n = 0 then ['0'] else ((Nat.digits 10 n).map Nat.digitChar).reverse

/-- The lease-id generator in the `/lease/acquire` branch:
`f"l{int(time.time()*1000)}_{os.getpid()}_{threading.get_ident()}"`,
a pure function of the wall-clock millisecond, the process id and the
handler thread's identity. -/
def leaseIdChars (wallMs pid threadIdent : Nat) : List Char :=
  'l' :: (pyStr wallMs ++ '_' :: (pyStr pid ++ '_' :: pyStr threadIdent))

/-- The generated lease id as a string. -/
def leaseIdStr (wallMs pid threadIdent : Nat) : String :=
  ⟨leaseIdChars wallMs pid threadIdent⟩

/-- The ids handed out over a daemon lifetime, one per `/lease/acquire`,
each computed from that acquisition's (wall-ms, pid, thread-ident) context. -/
def acquireIds (ctxs : List (Nat × Nat × Nat)) : List String :=
  ctxs.map (fun c => leaseIdStr c.1 c.2.1 c.2.2)

instance (evs : List DEvent) : Decidable (TimeSorted evs) :=
  inferInstanceAs (Decidable (evs.Pairwise fun a b => evTime a ≤ evTime b))

/-- The stage vocabulary as the spec writes it (spec §3, "Supervisor
State"): this list follows the spec's words, for comparison with the
values the source actually writes. -/
def specStageValues : List String :=
  ["idle", "starting", "ensure:llm_server", "ensure:stt", "ensure:tts", "ensure:llm_warm",
   "ready", "error"]

/-- The stage vocabulary the source actually writes: `"idle"` (init and
reaper), `"starting"` (`/ensure` admission), the four `_ensure_all` stage
labels, `"ready"`, and `"error"` (worker failure). -/
def sourceStageValues : List String :=
  ["idle", "starting", "ensure:ollama_server", "ensure:stt", "ensure:kokoro",
   "ensure:ollama_warm", "ready", "error"]

/-- The complete ordered stage sequence of one `_ensure_all` run that
reaches `ready`, as a function of whether a model was requested. -/
def fullStageSeq : Option String → List String
  | none => ["ensure:ollama_server", "ensure:stt", "ensure:kokoro", "ready"]
  | some _ => ["ensure:ollama_server", "ensure:stt", "ensure:kokoro", "ensure:ollama_warm", "ready"]

/-- A pipeline environment in which all four steps succeed. -/
def envAllOk : PipeEnv := ⟨.ok, .ok, .ok, .ok⟩

/-- A pipeline environment in which the STT step raises. -/
def envSttFail : PipeEnv := ⟨.ok, .error "STT not ready after 90.0s", .ok, .ok⟩

/-- The default timer configuration (`DAEMON_IDLE_TIMEOUT_S = 25`,
`DAEMON_LEASE_TTL_S = 15`, `DAEMON_HEARTBEAT_S = 5`), in seconds. -/
def cfg0 : Cfg := ⟨25, 15, 5⟩

/-- A concrete supervisor state holding the single lease `"a"`. -/
def sOneLease : DaemonState := { initState with leases := [("a", ⟨"a", 0, []⟩)] }

/-- A concrete supervisor state with a warmed model resident. -/
def sWarm : DaemonState := { initState with warm_model := some "qwen3:8b", warm_done := true }

/-- A concrete supervisor state with an ensure pipeline in flight. -/
def sBusy : DaemonState := { initState with ensuring := true, stage := "starting" }

/-- A concrete supervisor state owning all managed processes: a spawned
STT child (pid 41), a spawned Ollama child (pid 43), and a warm model. -/
def sOwned : DaemonState :=
  { initState with stt_proc := some 41, ollama_proc := some 43, ollama_managed := true,
                   warm_model := some "qwen3:8b" }

/-- A concrete run witnessing idle teardown with the default timers: one
lease acquired at 0 and never heartbeaten, reaper ticks every 5 time units.
The lease goes stale at the tick at 20; the tick at 15 was the last to
observe it and reset `last_zero_lease_time`; teardown fires at 40. -/
def trTeardown : List DEvent :=
  [.acquire "a" 0, .tick 5, .tick 10, .tick 15, .tick 20, .tick 25, .tick 30, .tick 35, .tick 40]

/-- Helper: the stage-write sequence of `_ensure_all` never repeats a stage. -/
theorem ensure_all_stages_nodup (env : PipeEnv) (model : Option String) (s : DaemonState) :
    (ensure_all env model s).stages.Nodup := by
  obtain ⟨o, st, k, w⟩ := env
  cases o <;> cases st <;> cases k <;> cases model <;> cases w <;> simp [ensure_all]

/-- Helper: the `/ensure` endpoint answers 202 `{"ok": True, "ensuring": True}`
no matter what. -/
theorem ensurePost_resp (s : DaemonState) : (ensurePost s).2.1 = respAccepted := by
  unfold ensurePost
  split <;> rfl

/-- C1: at most one ensure pipeline runs at a time. The `/ensure` handler
test-and-sets `ensuring` under the supervisor mutex: a request that finds
`ensuring = true` receives 202 and changes nothing and starts no worker;
of two serialised requests hitting an idle supervisor, the first starts a
worker and the second receives 202 without starting one or changing state. -/
theorem c1_single_ensure (s : DaemonState) :
    (s.ensuring = true → ensurePost s = (s, respAccepted, false)) ∧
    (s.ensuring = false →
      (ensurePost s).2.2 = true ∧
      ensurePost (ensurePost s).1 = ((ensurePost s).1, respAccepted, false)) := by
  constructor
  · intro h
    simp [ensurePost, h]
  · intro h
    simp [ensurePost, h]

/-- C1 witness: concrete instances of both branches of `c1_single_ensure`. -/
theorem c1_single_ensure_witness :
    (ensurePost sBusy = (sBusy, respAccepted, false)) ∧
    ((ensurePost initState).2.2 = true ∧
      ensurePost (ensurePost initState).1 = ((ensurePost initState).1, respAccepted, false)) :=
  ⟨(c1_single_ensure sBusy).1 rfl, (c1_single_ensure initState).2 rfl⟩

/-- C5: when any pipeline step fails, the worker sets `stage := "error"`,
stores the captured message in `last_error`, and clears `ensuring`; no
stage is retried within the run (the stage-write sequence has no
duplicate); and the `/ensure` admission response is 202 regardless. -/
theorem c5_ensure_failure (env : PipeEnv) (model : Option String) (s : DaemonState) (e : String)
    (h : (ensure_all env model s).err = some e) :
    (ensureWorker env model s).stage = "error" ∧
    (ensureWorker env model s).last_error = some e ∧
    (ensureWorker env model s).ensuring = false ∧
    (ensure_all env model s).stages.Nodup ∧
    (ensurePost s).2.1 = respAccepted ∧
    respAccepted.code = 202 := by
  have hw : ensureWorker env model s =
      { (ensure_all env model s).state with
          last_error := some e, stage := "error", ensuring := false } := by
    simp only [ensureWorker]
    rw [h]
  rw [hw]
  exact ⟨rfl, rfl, rfl, ensure_all_stages_nodup env model s, ensurePost_resp s, rfl⟩

/-- C5 witness: the STT step fails on an idle supervisor; the worker leaves
`stage = "error"`, the message in `last_error`, and `ensuring = false`. -/
theorem c5_ensure_failure_witness :
    (ensureWorker envSttFail (some "qwen3:8b") initState).stage = "error" ∧
    (ensureWorker envSttFail (some "qwen3:8b") initState).last_error =
      some "STT not ready after 90.0s" ∧
    (ensureWorker envSttFail (some "qwen3:8b") initState).ensuring = false ∧
    (ensure_all envSttFail (some "qwen3:8b") initState).stages.Nodup ∧
    (ensurePost initState).2.1 = respAccepted ∧
    respAccepted.code = 202 :=
  c5_ensure_failure envSttFail (some "qwen3:8b") initState "STT not ready after 90.0s" rfl

/-- Helper: looking up a key under a key-preserving value map. -/
theorem lookup_map_pairfn (g : String → Lease → Lease) (k : String)
    (ls : List (String × Lease)) :
    lookupLease k (ls.map (fun kv => (kv.1, g kv.1 kv.2))) = (lookupLease k ls).map (g k) := by
  induction ls with
  | nil => rfl
  | cons hd tl ih =>
      obtain ⟨a, l⟩ := hd
      by_cases h : a = k
      · subst h
        simp [lookupLease, ih]
      · simp [lookupLease, h, ih]

/-- Helper: looking up a key in the heartbeat-updated map: the target key's
lease gets `last_seen := now`, every other key reads as before. -/
theorem lookup_map_update (now : Int) (id k : String) (ls : List (String × Lease)) :
    lookupLease k (ls.map (fun kv =>
        if kv.1 = id then (kv.1, { kv.2 with last_seen := now }) else kv)) =
      if k = id then (lookupLease k ls).map (fun l => { l with last_seen := now })
      else lookupLease k ls := by
  have hmap : ls.map (fun kv => if kv.1 = id then (kv.1, { kv.2 with last_seen := now }) else kv)
      = ls.map (fun kv => (kv.1, if kv.1 = id then { kv.2 with last_seen := now } else kv.2)) := by
    apply List.map_congr_left
    intro kv _
    by_cases h : kv.1 = id
    · simp [h]
    · simp [h]
  rw [hmap, lookup_map_pairfn (fun a v => if a = id then { v with last_seen := now } else v) k ls]
  by_cases h : k = id
  · simp [h]
  · simp [h]

/-- Helper: the released key is gone from the filtered map. -/
theorem lookup_filter_self (id : String) (ls : List (String × Lease)) :
    lookupLease id (ls.filter (fun kv => kv.1 ≠ id)) = none := by
  induction ls with
  | nil => rfl
  | cons hd tl ih =>
      obtain ⟨a, l⟩ := hd
      rw [List.filter_cons]
      by_cases h : a = id
      · subst h
        rw [if_neg (by simp)]
        exact ih
      · rw [if_pos (by simp [h])]
        simp only [lookupLease]
        rw [if_neg h]
        exact ih

/-- Helper: releasing one key leaves every other key's entry readable. -/
theorem lookup_filter_other (id k : String) (hk : k ≠ id) (ls : List (String × Lease)) :
    lookupLease k (ls.filter (fun kv => kv.1 ≠ id)) = lookupLease k ls := by
  induction ls with
  | nil => rfl
  | cons hd tl ih =>
      obtain ⟨a, l⟩ := hd
      rw [List.filter_cons]
      by_cases h : a = id
      · subst h
        rw [if_neg (by simp)]
        rw [ih]
        simp only [lookupLease]
        rw [if_neg (fun hc => hk hc.symm)]
      · rw [if_pos (by simp [h])]
        simp only [lookupLease]
        by_cases hak : a = k
        · rw [if_pos hak, if_pos hak]
        · rw [if_neg hak, if_neg hak]
          exact ih

/-- C6: heartbeat semantics. An empty or missing `lease_id` yields
400 `missing_lease_id` with no state change; an unknown id yields
404 `unknown_lease` with no state change (in particular nothing is
inserted or resurrected); a known id yields 200 `{ok:true}` and the only
change is that lease's `last_seen`, which becomes `now`. -/
theorem c6_heartbeat (now : Int) (id : String) (s : DaemonState) :
    (id = "" → leaseHeartbeatPost now id s = (s, respMissingLease)) ∧
    (id ≠ "" → lookupLease id s.leases = none →
      leaseHeartbeatPost now id s = (s, respUnknownLease)) ∧
    (∀ l, id ≠ "" → lookupLease id s.leases = some l →
      (leaseHeartbeatPost now id s).2 = respOk ∧
      lookupLease id (leaseHeartbeatPost now id s).1.leases =
        some { l with last_seen := now } ∧
      (∀ k, k ≠ id → lookupLease k (leaseHeartbeatPost now id s).1.leases =
        lookupLease k s.leases) ∧
      (leaseHeartbeatPost now id s).1.leases.length = s.leases.length ∧
      (leaseHeartbeatPost now id s).1 =
        { s with leases := (leaseHeartbeatPost now id s).1.leases }) := by
  refine ⟨fun h => by simp [leaseHeartbeatPost, h], fun h1 h2 => by simp [leaseHeartbeatPost, h1, h2], ?_⟩
  intro l h1 h2
  have hstep : leaseHeartbeatPost now id s =
      ({ s with leases := s.leases.map (fun kv =>
          if kv.1 = id then (kv.1, { kv.2 with last_seen := now }) else kv) }, respOk) := by
    simp [leaseHeartbeatPost, h1, h2]
  rw [hstep]
  refine ⟨rfl, ?_, ?_, by simp, rfl⟩
  · simp [lookup_map_update, h2]
  · intro k hk
    simp [lookup_map_update, hk]

/-- C6 witness: concrete instances of the three heartbeat branches on the
one-lease state `sOneLease`. -/
theorem c6_heartbeat_witness :
    leaseHeartbeatPost 5 "" sOneLease = (sOneLease, respMissingLease) ∧
    leaseHeartbeatPost 5 "b" sOneLease = (sOneLease, respUnknownLease) ∧
    (leaseHeartbeatPost 7 "a" sOneLease).2 = respOk ∧
    lookupLease "a" (leaseHeartbeatPost 7 "a" sOneLease).1.leases = some ⟨"a", 7, []⟩ :=
  ⟨(c6_heartbeat 5 "" sOneLease).1 rfl,
   (c6_heartbeat 5 "b" sOneLease).2.1 (by decide) rfl,
   ((c6_heartbeat 7 "a" sOneLease).2.2 ⟨"a", 0, []⟩ (by decide) rfl).1,
   ((c6_heartbeat 7 "a" sOneLease).2.2 ⟨"a", 0, []⟩ (by decide) rfl).2.1⟩

/-- C7 counterexample: the claim says a release of an absent id reports an
`unknown` outcome distinguishable from `ok`. In the source, releasing the
absent id `"b"` on the one-lease state returns exactly the same
200 `{"ok": True}` response as releasing the present id `"a"`: the two
outcomes are indistinguishable to the caller. -/
theorem c7_release_counterexample :
    lookupLease "b" sOneLease.leases = none ∧
    lookupLease "a" sOneLease.leases = some ⟨"a", 0, []⟩ ∧
    (leaseReleasePost 5 "b" sOneLease).2 = respOk ∧
    (leaseReleasePost 5 "a" sOneLease).2 = respOk := by
  exact ⟨rfl, rfl, rfl, rfl⟩

/-- C7 amended: for every `/lease/release` with a non-empty id the response
is 200 `{"ok": True}` whether or not the id is present (absence is not
distinguishable from success); the id is removed if present and never
inserted; other leases are untouched; and `last_zero_lease_time := now`
exactly when the map is empty afterwards. -/
theorem c7_release_amended (now : Int) (id : String) (s : DaemonState) (h : id ≠ "") :
    (leaseReleasePost now id s).2 = respOk ∧
    lookupLease id (leaseReleasePost now id s).1.leases = none ∧
    (∀ k, k ≠ id → lookupLease k (leaseReleasePost now id s).1.leases = lookupLease k s.leases) ∧
    (leaseReleasePost now id s).1.leases.length ≤ s.leases.length ∧
    ((leaseReleasePost now id s).1.leases = [] →
      (leaseReleasePost now id s).1.last_zero_lease_time = now) ∧
    ((leaseReleasePost now id s).1.leases ≠ [] →
      (leaseReleasePost now id s).1.last_zero_lease_time = s.last_zero_lease_time) ∧
    (leaseReleasePost now id s).1.ensuring = s.ensuring ∧
    (leaseReleasePost now id s).1.stage = s.stage ∧
    (leaseReleasePost now id s).1.warm_model = s.warm_model := by
  by_cases hlen : (s.leases.filter (fun kv => kv.1 ≠ id)).length = 0
  · have hstep : leaseReleasePost now id s =
        ({ s with leases := s.leases.filter (fun kv => kv.1 ≠ id),
                  last_zero_lease_time := now }, respOk) := by
      unfold leaseReleasePost
      rw [if_neg h, if_pos hlen]
    have e2 : (leaseReleasePost now id s).1.leases =
        s.leases.filter (fun kv => kv.1 ≠ id) := by rw [hstep]
    have e3 : (leaseReleasePost now id s).1.last_zero_lease_time = now := by rw [hstep]
    refine ⟨by rw [hstep], ?_, ?_, ?_, fun _ => e3, ?_, by rw [hstep], by rw [hstep], by rw [hstep]⟩
    · rw [e2]
      exact lookup_filter_self id s.leases
    · intro k hki
      rw [e2]
      exact lookup_filter_other id k hki s.leases
    · rw [e2]
      exact List.length_filter_le _ _
    · intro hne
      rw [e2] at hne
      exact absurd (List.length_eq_zero.mp hlen) hne
  · have hstep : leaseReleasePost now id s =
        ({ s with leases := s.leases.filter (fun kv => kv.1 ≠ id) }, respOk) := by
      unfold leaseReleasePost
      rw [if_neg h, if_neg hlen]
    have e2 : (leaseReleasePost now id s).1.leases =
        s.leases.filter (fun kv => kv.1 ≠ id) := by rw [hstep]
    have e3 : (leaseReleasePost now id s).1.last_zero_lease_time =
        s.last_zero_lease_time := by rw [hstep]
    refine ⟨by rw [hstep], ?_, ?_, ?_, ?_, fun _ => e3, by rw [hstep], by rw [hstep], by rw [hstep]⟩
    · rw [e2]
      exact lookup_filter_self id s.leases
    · intro k hki
      rw [e2]
      exact lookup_filter_other id k hki s.leases
    · rw [e2]
      exact List.length_filter_le _ _
    · intro hnil
      rw [e2] at hnil
      have hz : (s.leases.filter (fun kv => kv.1 ≠ id)).length = 0 := by
        rw [hnil]
        rfl
      exact absurd hz hlen

/-- C7 amended witness: releasing the present id `"a"` at time 5 empties
the registry, resets `last_zero_lease_time` to 5, and answers `{ok:true}`. -/
theorem c7_release_amended_witness :
    (leaseReleasePost 5 "a" sOneLease).2 = respOk ∧
    lookupLease "a" (leaseReleasePost 5 "a" sOneLease).1.leases = none ∧
    ((leaseReleasePost 5 "a" sOneLease).1.leases = [] →
      (leaseReleasePost 5 "a" sOneLease).1.last_zero_lease_time = 5) :=
  ⟨(c7_release_amended 5 "a" sOneLease (by decide)).1,
   (c7_release_amended 5 "a" sOneLease (by decide)).2.1,
   (c7_release_amended 5 "a" sOneLease (by decide)).2.2.2.2.1⟩

/-- C9 counterexample: the claim says `warm_model`/`warm_done` are written
only if a model was requested. In the source they are written
unconditionally after the TTS step: a fully successful run with no model
requested, starting from a state holding a previously warmed model,
overwrites `warm_model` to `None` and `warm_done` to `False` (while indeed
skipping the warm stage). -/
theorem c9_warm_counterexample :
    sWarm.warm_model = some "qwen3:8b" ∧
    sWarm.warm_done = true ∧
    (ensure_all envAllOk none sWarm).err = none ∧
    (ensure_all envAllOk none sWarm).state.warm_model = none ∧
    (ensure_all envAllOk none sWarm).state.warm_done = false ∧
    "ensure:ollama_warm" ∉ (ensure_all envAllOk none sWarm).stages := by
  decide

/-- C9 amended: whenever the three bring-up steps succeed, `_ensure_all`
sets `warm_model := model` and `warm_done := false` unconditionally (also
when no model was requested); the warm stage runs, and `warm_done` ends
`true`, exactly when a model was requested (and then only if the warm call
succeeded). -/
theorem c9_warm_amended (env : PipeEnv) (model : Option String) (s : DaemonState)
    (h1 : env.ollamaServer = .ok) (h2 : env.stt = .ok) (h3 : env.kokoro = .ok) :
    (ensure_all env model s).state.warm_model = model ∧
    ((ensure_all env model s).state.warm_done = true ↔ model ≠ none ∧ env.warm = .ok) ∧
    ("ensure:ollama_warm" ∈ (ensure_all env model s).stages ↔ model ≠ none) := by
  obtain ⟨o, st, k, w⟩ := env
  simp only at h1 h2 h3
  subst h1 h2 h3
  cases model <;> cases w <;> simp [ensure_all]

/-- C9 amended witness: a successful run with a model requested ends with
`warm_model` set to it and `warm_done = true`; the warm stage ran. -/
theorem c9_warm_amended_witness :
    (ensure_all envAllOk (some "qwen3:8b") initState).state.warm_model = some "qwen3:8b" ∧
    ((ensure_all envAllOk (some "qwen3:8b") initState).state.warm_done = true ↔
      (some "qwen3:8b" ≠ (none : Option String)) ∧ envAllOk.warm = .ok) ∧
    ("ensure:ollama_warm" ∈ (ensure_all envAllOk (some "qwen3:8b") initState).stages ↔
      (some "qwen3:8b" ≠ (none : Option String))) :=
  c9_warm_amended envAllOk (some "qwen3:8b") initState rfl rfl rfl

/-- C4 counterexample: the claim restricts `stage` to the spec's vocabulary
(`ensure:llm_server`, `ensure:tts`, `ensure:llm_warm`, ...). The source
writes `ensure:ollama_server` (and `ensure:kokoro`, `ensure:ollama_warm`)
instead: the very first stage of a successful run is not in the claimed set. -/
theorem c4_stage_counterexample :
    (ensure_all envAllOk (some "qwen3:8b") initState).err = none ∧
    "ensure:ollama_server" ∈ (ensure_all envAllOk (some "qwen3:8b") initState).stages ∧
    "ensure:ollama_server" ∉ specStageValues ∧
    "ensure:kokoro" ∈ (ensure_all envAllOk (some "qwen3:8b") initState).stages ∧
    "ensure:kokoro" ∉ specStageValues := by
  decide

/-- C4 amended: the pipeline's stage writes are always a prefix of the
strictly ordered source sequence `ensure:ollama_server`, `ensure:stt`,
`ensure:kokoro`, (`ensure:ollama_warm` when a model was requested),
`ready` — the whole sequence when no step fails — and every stage value
the daemon ever writes lies in the source vocabulary
{idle, starting, ensure:ollama_server, ensure:stt, ensure:kokoro,
ensure:ollama_warm, ready, error}. -/
theorem c4_stage_order_amended (env : PipeEnv) (model : Option String) (s : DaemonState) :
    (∃ tail, (ensure_all env model s).stages ++ tail = fullStageSeq model) ∧
    ((ensure_all env model s).err = none →
      (ensure_all env model s).stages = fullStageSeq model) ∧
    (∀ st ∈ (ensure_all env model s).stages, st ∈ sourceStageValues) ∧
    (ensure_all env model s).state.stage ∈ sourceStageValues ∧
    (∀ s' : DaemonState, (ensurePost s').1.stage = s'.stage ∨ (ensurePost s').1.stage = "starting") ∧
    (∀ (env' : PipeEnv) (model' : Option String) (s' : DaemonState),
      (ensureWorker env' model' s').stage = "error" ∨
      (ensureWorker env' model' s').stage = (ensure_all env' model' s').state.stage) ∧
    (∀ (cfg : Cfg) (now : Int) (s' : DaemonState),
      (reaperTick cfg now s').1.stage = s'.stage ∨ (reaperTick cfg now s').1.stage = "idle") ∧
    initState.stage ∈ sourceStageValues := by
  refine ⟨?_, ?_, ?_, ?_, ?_, ?_, ?_, by decide⟩
  · obtain ⟨o, st, k, w⟩ := env
    cases o <;> cases st <;> cases k <;> cases model <;> cases w <;>
      simp [ensure_all, fullStageSeq]
  · intro herr
    obtain ⟨o, st, k, w⟩ := env
    cases o <;> cases st <;> cases k <;> cases model <;> cases w <;>
      simp_all [ensure_all, fullStageSeq]
  · intro st hst
    obtain ⟨o, s1, k, w⟩ := env
    cases o <;> cases s1 <;> cases k <;> cases model <;> cases w <;>
      simp_all [ensure_all, sourceStageValues] <;> tauto
  · obtain ⟨o, s1, k, w⟩ := env
    cases o <;> cases s1 <;> cases k <;> cases model <;> cases w <;>
      simp [ensure_all, sourceStageValues]
  · intro s'
    unfold ensurePost
    split
    · exact Or.inl rfl
    · exact Or.inr rfl
  · intro env' model' s'
    cases henv : (ensure_all env' model' s').err with
    | none =>
        have hw : ensureWorker env' model' s' =
            { (ensure_all env' model' s').state with ensuring := false } := by
          simp only [ensureWorker]
          rw [henv]
        rw [hw]
        exact Or.inr rfl
    | some e =>
        have hw : ensureWorker env' model' s' =
            { (ensure_all env' model' s').state with
                last_error := some e, stage := "error", ensuring := false } := by
          simp only [ensureWorker]
          rw [henv]
        rw [hw]
        exact Or.inl rfl
  · intro cfg now s'
    unfold reaperTick
    split
    · split
      · exact Or.inr rfl
      · exact Or.inl rfl
    · exact Or.inl rfl


/-- C4 amended witness: a failing-STT run with a model requested writes
exactly the prefix `ensure:ollama_server`, `ensure:stt`, all inside the
source vocabulary. -/
theorem c4_stage_order_amended_witness :
    (∃ tail, (ensure_all envSttFail (some "qwen3:8b") initState).stages ++ tail =
      fullStageSeq (some "qwen3:8b")) ∧
    ((ensure_all envAllOk (some "qwen3:8b") initState).err = none →
      (ensure_all envAllOk (some "qwen3:8b") initState).stages =
        fullStageSeq (some "qwen3:8b")) :=
  ⟨(c4_stage_order_amended envSttFail (some "qwen3:8b") initState).1,
   (c4_stage_order_amended envAllOk (some "qwen3:8b") initState).2.1⟩

/-- C3 counterexample: the claim says no externally-running service is
ever stopped on teardown. From a state in which the daemon spawned
nothing (`stt_proc = none`, `ollama_managed = false` — so STT, TTS and
LLM, if running, are all external), teardown still emits the compose
`stop` command, which stops an externally started Kokoro TTS stack:
`_stop_kokoro` has no ownership check. -/
theorem c3_ownership_counterexample :
    initState.stt_proc = none ∧
    initState.ollama_proc = none ∧
    initState.ollama_managed = false ∧
    initState.warm_model = none ∧
    (teardownStops true initState).2 = [StopAction.composeStop] := by
  decide

/-- C3 amended: on every teardown (idle reaper or shutdown), ownership is
respected for STT and the LLM — an STT terminate is emitted only for the
pid the daemon spawned, an Ollama terminate only when `ollama_managed`
holds and only for the spawned pid, and a model unload only for the
recorded warm model — but the Kokoro compose `stop` is emitted whenever a
compose binary is present, regardless of who started the TTS stack. -/
theorem c3_ownership_amended (cp : Bool) (s : DaemonState) :
    (∀ pid, StopAction.terminateStt pid ∈ (teardownStops cp s).2 → s.stt_proc = some pid) ∧
    (∀ pid, StopAction.terminateOllama pid ∈ (teardownStops cp s).2 →
      s.ollama_managed = true ∧ s.ollama_proc = some pid) ∧
    (∀ m, StopAction.unloadModel m ∈ (teardownStops cp s).2 → s.warm_model = some m) ∧
    (s.stt_proc = none → ∀ pid, StopAction.terminateStt pid ∉ (teardownStops cp s).2) ∧
    (s.ollama_managed = false → ∀ pid, StopAction.terminateOllama pid ∉ (teardownStops cp s).2) ∧
    (StopAction.composeStop ∈ (teardownStops cp s).2 ↔ cp = true) := by
  obtain ⟨ens, stg, le, ls, lz, sp, op, om, wm, wd, sf⟩ := s
  cases sp <;> cases op <;> cases om <;> cases wm <;> cases cp <;>
    simp [teardownStops, stop_stt, stop_kokoro, stop_ollama]

/-- C3 amended witness: from the fully-owned state, teardown with a compose
binary present emits the unload, both terminates, and the compose stop. -/
theorem c3_ownership_amended_witness :
    sOwned.stt_proc = some 41 ∧
    (sOwned.ollama_managed = true ∧ sOwned.ollama_proc = some 43) ∧
    sOwned.warm_model = some "qwen3:8b" ∧
    (StopAction.composeStop ∈ (teardownStops true sOwned).2 ↔ true = true) :=
  ⟨(c3_ownership_amended true sOwned).1 41 (by decide),
   (c3_ownership_amended true sOwned).2.1 43 (by decide),
   (c3_ownership_amended true sOwned).2.2.1 "qwen3:8b" (by decide),
   (c3_ownership_amended true sOwned).2.2.2.2.2⟩

/-- C10: `GET /status` never fails. `_http_json` is total — a success or
`HTTPError` outcome yields its code with a best-effort body and every other
network exception yields `(0, None)` — the three probes map every abnormal
outcome (network error, non-200 status, empty or malformed body) to a
`false` health verdict rather than an exception, and the `/status` handler
answers 200 with an `ok: true` document for every probe outcome and every
supervisor state. -/
theorem c10_status_total (cfg : Cfg) (sc : StatusCfg) (env : NetEnv) (s : DaemonState) :
    (doGET cfg sc env "/status" s).code = 200 ∧
    (∃ rest, (doGET cfg sc env "/status" s).body = J.obj (("ok", J.bool true) :: rest)) ∧
    httpJson .netError = (0, none) ∧
    stt_running .netError = false ∧
    kokoro_running env.kokoroTcp .netError = false ∧
    ollama_running .netError = false ∧
    (∀ r : NetResult, (httpJson r).1 ≠ 200 →
      stt_running r = false ∧ kokoro_running env.kokoroTcp r = false ∧
      ollama_running r = false) ∧
    (∀ r : NetResult, (httpJson r).2 = none →
      stt_running r = false ∧ kokoro_running env.kokoroTcp r = false ∧
      ollama_running r = false) := by
  refine ⟨?_, ?_, rfl, ?_, ?_, ?_, ?_, ?_⟩
  · simp [doGET]
  · exact ⟨_, rfl⟩
  · rfl
  · simp [kokoro_running, httpJson, bodyHasField]
  · rfl
  · intro r hr
    have h200 : ((httpJson r).1 == 200) = false := by
      simpa using hr
    refine ⟨?_, ?_, ?_⟩ <;> simp [stt_running, kokoro_running, ollama_running, h200]
  · intro r hr
    refine ⟨?_, ?_, ?_⟩ <;>
      simp [stt_running, kokoro_running, ollama_running, hr, bodyOkTrue, bodyHasField]

/-- C10 witness: a 500 status with unreadable body yields `false` verdicts
from all three probes. -/
theorem c10_status_total_witness :
    stt_running (.httpError 500 none) = false ∧
    kokoro_running true (.httpError 500 none) = false ∧
    ollama_running (.httpError 500 none) = false :=
  (c10_status_total cfg0 ⟨"", "", "", "", ""⟩ ⟨.netError, true, .netError, .netError⟩
    initState).2.2.2.2.2.2.1 (.httpError 500 none) (by decide)

/-- Helper: folding a run over an appended trace. -/
theorem runEvents_append (cfg : Cfg) (r : RunSt) (a b : List DEvent) :
    runEvents cfg r (a ++ b) = runEvents cfg (runEvents cfg r a) b := by
  simp [runEvents, List.foldl_append]

/-- Helper: folding a run over a cons trace. -/
theorem runEvents_cons (cfg : Cfg) (r : RunSt) (e : DEvent) (evs : List DEvent) :
    runEvents cfg r (e :: evs) = runEvents cfg (applyEv cfg r e) evs := rfl

/-- Helper: state after an acquire event. -/
theorem applyEv_acquire_ds (cfg : Cfg) (r : RunSt) (id : String) (t : Int) :
    (applyEv cfg r (.acquire id t)).ds = (leaseAcquirePost cfg t id [] r.ds).1 := rfl

/-- Helper: state after a heartbeat event. -/
theorem applyEv_heartbeat_ds (cfg : Cfg) (r : RunSt) (id : String) (t : Int) :
    (applyEv cfg r (.heartbeat id t)).ds = (leaseHeartbeatPost t id r.ds).1 := rfl

/-- Helper: state after a release event. -/
theorem applyEv_release_ds (cfg : Cfg) (r : RunSt) (id : String) (t : Int) :
    (applyEv cfg r (.release id t)).ds = (leaseReleasePost t id r.ds).1 := rfl

/-- Helper: state after a tick event. -/
theorem applyEv_tick_ds (cfg : Cfg) (r : RunSt) (t : Int) :
    (applyEv cfg r (.tick t)).ds = (reaperTick cfg t r.ds).1 := rfl

/-- Helper: a heartbeat never changes `last_zero_lease_time`. -/
theorem heartbeat_lz (now : Int) (id : String) (s : DaemonState) :
    (leaseHeartbeatPost now id s).1.last_zero_lease_time = s.last_zero_lease_time := by
  unfold leaseHeartbeatPost
  split
  · rfl
  · split <;> rfl

/-- Helper: a heartbeat never changes whether the lease map is empty. -/
theorem heartbeat_leases_nil (now : Int) (id : String) (s : DaemonState) :
    (leaseHeartbeatPost now id s).1.leases = [] ↔ s.leases = [] := by
  unfold leaseHeartbeatPost
  split
  · exact Iff.rfl
  · split
    · exact Iff.rfl
    · simp

/-- Helper: a tick leaves exactly the non-stale leases in the map. -/
theorem reaperTick_leases (cfg : Cfg) (now : Int) (s : DaemonState) :
    (reaperTick cfg now s).1.leases = expireStale cfg.lease_ttl_s now s.leases := by
  unfold reaperTick
  split
  · split <;> rfl
  · rfl

/-- Helper: after a tick, `last_zero_lease_time` is either the tick's
`now` (a live lease was observed, or teardown ran) or unchanged — and in
the latter case the post-expiry map was empty. -/
theorem reaperTick_lz (cfg : Cfg) (now : Int) (s : DaemonState) :
    (reaperTick cfg now s).1.last_zero_lease_time = now ∨
    ((reaperTick cfg now s).1.last_zero_lease_time = s.last_zero_lease_time ∧
      (expireStale cfg.lease_ttl_s now s.leases).length = 0) := by
  unfold reaperTick
  split
  next hk =>
    split
    · exact Or.inl rfl
    · exact Or.inr ⟨rfl, hk⟩
  next hk => exact Or.inl rfl

/-- Helper: the reaper's teardown decision, unfolded: teardown fires at a
tick exactly when the post-expiry map is empty and at least
`idle_timeout_s` has elapsed since `last_zero_lease_time`. -/
theorem fires_iff (cfg : Cfg) (now : Int) (s : DaemonState) :
    (reaperTick cfg now s).2 = true ↔
      ((expireStale cfg.lease_ttl_s now s.leases).length = 0 ∧
        now - s.last_zero_lease_time ≥ cfg.idle_timeout_s) := by
  unfold reaperTick
  split
  next hk =>
    split
    next hf => simp [hk, hf]
    next hf => simp [hk, hf]
  next hk => simp [hk]

/-- Helper: one event keeps `last_zero_lease_time` at or above any bound
that is below both the current value and the event's time. -/
theorem step_lz_lb (cfg : Cfg) (c : Int) (r : RunSt) (e : DEvent)
    (h0 : c ≤ r.ds.last_zero_lease_time) (hte : c ≤ evTime e) :
    c ≤ (applyEv cfg r e).ds.last_zero_lease_time := by
  cases e with
  | acquire id t => exact hte
  | heartbeat id t =>
      rw [applyEv_heartbeat_ds, heartbeat_lz]
      exact h0
  | release id t =>
      rw [applyEv_release_ds]
      by_cases hid : id = ""
      · rw [hid]
        exact h0
      · by_cases hlen : (r.ds.leases.filter (fun kv => kv.1 ≠ id)).length = 0
        · have hb : (leaseReleasePost t id r.ds).1 =
              { r.ds with leases := r.ds.leases.filter (fun kv => kv.1 ≠ id),
                          last_zero_lease_time := t } := by
            unfold leaseReleasePost
            rw [if_neg hid, if_pos hlen]
          rw [hb]
          exact hte
        · have hb : (leaseReleasePost t id r.ds).1 =
              { r.ds with leases := r.ds.leases.filter (fun kv => kv.1 ≠ id) } := by
            unfold leaseReleasePost
            rw [if_neg hid, if_neg hlen]
          rw [hb]
          exact h0
  | tick t =>
      rw [applyEv_tick_ds]
      rcases reaperTick_lz cfg t r.ds with h | ⟨h, _⟩
      · rw [h]
        exact hte
      · rw [h]
        exact h0

/-- Helper: a run keeps `last_zero_lease_time` at or above any bound that
is below the starting value and below every event time. -/
theorem run_lz_lb (cfg : Cfg) (c : Int) (evs : List DEvent) (r : RunSt)
    (h0 : c ≤ r.ds.last_zero_lease_time) (ht : ∀ e ∈ evs, c ≤ evTime e) :
    c ≤ (runEvents cfg r evs).ds.last_zero_lease_time := by
  induction evs generalizing r with
  | nil => exact h0
  | cons e rest ih =>
      rw [runEvents_cons]
      refine ih (applyEv cfg r e) ?_ ?_
      · exact step_lz_lb cfg c r e h0 (ht e (by simp))
      · intro e' he'
        exact ht e' (by simp [he'])

/-- Helper: one event preserves the invariant "if the lease map is
nonempty then `last_zero_lease_time` is at least `c`". -/
theorem step_lz_nonempty (cfg : Cfg) (c : Int) (r : RunSt) (e : DEvent)
    (h0 : r.ds.leases ≠ [] → c ≤ r.ds.last_zero_lease_time) (hte : c ≤ evTime e) :
    (applyEv cfg r e).ds.leases ≠ [] → c ≤ (applyEv cfg r e).ds.last_zero_lease_time := by
  cases e with
  | acquire id t => exact fun _ => hte
  | heartbeat id t =>
      intro hne
      rw [applyEv_heartbeat_ds, heartbeat_lz]
      refine h0 fun hnil => ?_
      rw [applyEv_heartbeat_ds] at hne
      exact hne ((heartbeat_leases_nil t id r.ds).mpr hnil)
  | release id t =>
      rw [applyEv_release_ds]
      by_cases hid : id = ""
      · rw [hid]
        exact h0
      · by_cases hlen : (r.ds.leases.filter (fun kv => kv.1 ≠ id)).length = 0
        · have hb : (leaseReleasePost t id r.ds).1 =
              { r.ds with leases := r.ds.leases.filter (fun kv => kv.1 ≠ id),
                          last_zero_lease_time := t } := by
            unfold leaseReleasePost
            rw [if_neg hid, if_pos hlen]
          rw [hb]
          exact fun _ => hte
        · have hb : (leaseReleasePost t id r.ds).1 =
              { r.ds with leases := r.ds.leases.filter (fun kv => kv.1 ≠ id) } := by
            unfold leaseReleasePost
            rw [if_neg hid, if_neg hlen]
          rw [hb]
          intro _
          refine h0 fun hnil => ?_
          apply hlen
          rw [hnil]
          rfl
  | tick t =>
      rw [applyEv_tick_ds]
      intro hne
      rw [reaperTick_leases] at hne
      rcases reaperTick_lz cfg t r.ds with h | ⟨_, hk⟩
      · rw [h]
        exact hte
      · exact absurd (List.length_eq_zero.mp hk) hne

/-- Helper: a run preserves the invariant "nonempty lease map implies
`last_zero_lease_time ≥ c`" when every event of the run is at time ≥ c. -/
theorem run_lz_nonempty (cfg : Cfg) (c : Int) (evs : List DEvent) (r : RunSt)
    (h0 : r.ds.leases ≠ [] → c ≤ r.ds.last_zero_lease_time)
    (ht : ∀ e ∈ evs, c ≤ evTime e) :
    (runEvents cfg r evs).ds.leases ≠ [] →
      c ≤ (runEvents cfg r evs).ds.last_zero_lease_time := by
  induction evs generalizing r with
  | nil => exact h0
  | cons e rest ih =>
      rw [runEvents_cons]
      refine ih (applyEv cfg r e) ?_ ?_
      · exact step_lz_nonempty cfg c r e h0 (ht e (by simp))
      · intro e' he'
        exact ht e' (by simp [he'])

/-- Helper: after a time-sorted trace containing a tick at `tk`, a
nonempty lease map forces `last_zero_lease_time ≥ tk` — the latest tick
that ran against a live lease (or any later event assigning the clock)
keeps the idle clock at least that recent. -/
theorem tick_lb_of_nonempty (cfg : Cfg) (evs : List DEvent) (tk : Int)
    (hs : TimeSorted evs) (hmem : DEvent.tick tk ∈ evs) :
    (runEvents cfg initRun evs).ds.leases ≠ [] →
      tk ≤ (runEvents cfg initRun evs).ds.last_zero_lease_time := by
  obtain ⟨a, b, rfl⟩ := List.append_of_mem hmem
  rw [runEvents_append, runEvents_cons]
  apply run_lz_nonempty
  · intro hne
    rw [applyEv_tick_ds] at hne ⊢
    rw [reaperTick_leases] at hne
    rcases reaperTick_lz cfg tk (runEvents cfg initRun a).ds with h | ⟨_, hk⟩
    · rw [h]
    · exact absurd (List.length_eq_zero.mp hk) hne
  · intro e he
    have hp : (DEvent.tick tk :: b).Pairwise (fun a b => evTime a ≤ evTime b) :=
      (List.pairwise_append.mp hs).2.1
    exact List.rel_of_pairwise_cons hp he

/-- C2 counterexample: the claim says teardown at `t` implies the registry
was empty throughout `[t − idle_timeout_s, t]`. With the default timers
(idle 25, TTL 15) and the reaper ticking every 5 units, a lease acquired
at 0 and never heartbeaten goes stale and is expired at the tick at 20 —
but `last_zero_lease_time` is only as fresh as the tick at 15, the last
one to observe the lease alive. Teardown then fires at 40, yet the lease
was still in the registry at instant 17 ∈ [40 − 25, 40]: between the last
observing tick and the expiring tick the registry is nonempty while the
idle clock already runs. -/
theorem c2_teardown_gating_counterexample :
    TimeSorted trTeardown ∧
    (runEvents cfg0 initRun trTeardown).teardowns = [40] ∧
    (runEvents cfg0 initRun (trTeardown.filter (fun e => evTime e ≤ 17))).ds.leases ≠ [] ∧
    (40 : Int) - cfg0.idle_timeout_s ≤ 17 ∧ (17 : Int) ≤ 40 := by
  decide

/-- C2 amended: teardown at a tick at time `t` still implies the registry
was empty at `t'` for every instant `t' ∈ (t − idle_timeout_s, t]` that
lies at or after some reaper tick later than `t − idle_timeout_s`; only in
the interval before the first such tick (at most one tick period, while an
expired-but-not-yet-reaped lease lingers) can the registry have been
nonempty. Here `q` is the prefix of events at time ≤ t', `r` the events in
(t', t), and the tick at `tk ∈ (t − idle_timeout_s, t']` is the witness
tick. -/
theorem c2_teardown_gating_amended (cfg : Cfg) (pre q r : List DEvent) (t t' tk : Int)
    (hs : TimeSorted (pre ++ [DEvent.tick t]))
    (hsplit : pre = q ++ r)
    (hq : ∀ e ∈ q, evTime e ≤ t')
    (hr : ∀ e ∈ r, t' < evTime e)
    (_ht' : t' ≤ t)
    (_hgt : t - cfg.idle_timeout_s < t')
    (htk : DEvent.tick tk ∈ q)
    (htkgt : t - cfg.idle_timeout_s < tk)
    (hfire : (reaperTick cfg t (runEvents cfg initRun pre).ds).2 = true) :
    (runEvents cfg initRun q).ds.leases = [] := by
  by_contra hne
  have hsq : TimeSorted q := by
    have hsub : q.Sublist (pre ++ [DEvent.tick t]) := by
      rw [hsplit, List.append_assoc]
      exact List.sublist_append_left q (r ++ [DEvent.tick t])
    exact List.Pairwise.sublist hsub hs
  have hlb : tk ≤ (runEvents cfg initRun q).ds.last_zero_lease_time :=
    tick_lb_of_nonempty cfg q tk hsq htk hne
  have hlb2 : tk ≤ (runEvents cfg initRun pre).ds.last_zero_lease_time := by
    rw [hsplit, runEvents_append]
    refine run_lz_lb cfg tk r (runEvents cfg initRun q) hlb ?_
    intro e he
    have h1 : tk ≤ t' := hq _ htk
    exact le_of_lt (lt_of_le_of_lt h1 (hr e he))
  have hidle : t - (runEvents cfg initRun pre).ds.last_zero_lease_time ≥ cfg.idle_timeout_s :=
    ((fires_iff cfg t (runEvents cfg initRun pre).ds).mp hfire).2
  omega

/-- C2 amended witness: in the teardown run of the counterexample, take
`t = 40`, `t' = 22`, witness tick `tk = 20 > 15 = t − idle_timeout_s`:
the registry at 22 (state after the events up to time 22) is empty. -/
theorem c2_teardown_gating_amended_witness :
    (reaperTick cfg0 40 (runEvents cfg0 initRun
      [.acquire "a" 0, .tick 5, .tick 10, .tick 15, .tick 20, .tick 25, .tick 30,
       .tick 35]).ds).2 = true ∧
    (runEvents cfg0 initRun
      [DEvent.acquire "a" 0, DEvent.tick 5, DEvent.tick 10, DEvent.tick 15,
       DEvent.tick 20]).ds.leases = [] :=
  ⟨by decide,
   c2_teardown_gating_amended cfg0
     [.acquire "a" 0, .tick 5, .tick 10, .tick 15, .tick 20, .tick 25, .tick 30, .tick 35]
     [.acquire "a" 0, .tick 5, .tick 10, .tick 15, .tick 20]
     [.tick 25, .tick 30, .tick 35]
     40 22 20
     (by decide) (by decide) (by decide) (by decide) (by decide) (by decide)
     (by decide) (by decide) (by decide)⟩

/-- Helper: `Nat.digitChar` is injective on digits below 10. -/
theorem digitChar_inj_lt {a b : Nat} (ha : a < 10) (hb : b < 10)
    (h : Nat.digitChar a = Nat.digitChar b) : a = b := by
  have hfin : ∀ x y : Fin 10, Nat.digitChar x.val = Nat.digitChar y.val → x = y := by decide
  exact congrArg Fin.val (hfin ⟨a, ha⟩ ⟨b, hb⟩ h)

/-- Helper: no digit character is the underscore separator. -/
theorem digitChar_ne_underscore {a : Nat} (ha : a < 10) : Nat.digitChar a ≠ '_' := by
  have hfin : ∀ x : Fin 10, Nat.digitChar x.val ≠ '_' := by decide
  exact hfin ⟨a, ha⟩

/-- Helper: every character of a decimal rendering is a digit, never the
underscore separator. -/
theorem pyStr_ne_underscore (n : Nat) : ∀ c ∈ pyStr n, c ≠ '_' := by
  intro c hc
  unfold pyStr at hc
  split at hc
  · simp only [List.mem_singleton] at hc
    subst hc
    decide
  · rw [List.mem_reverse, List.mem_map] at hc
    obtain ⟨d, hd, rfl⟩ := hc
    exact digitChar_ne_underscore (Nat.digits_lt_base (by norm_num) hd)

/-- Helper: mapping `digitChar` over bounded digit lists is injective. -/
theorem map_digitChar_inj : ∀ (xs ys : List Nat), (∀ x ∈ xs, x < 10) → (∀ y ∈ ys, y < 10) →
    xs.map Nat.digitChar = ys.map Nat.digitChar → xs = ys
  | [], [], _, _, _ => rfl
  | [], _ :: _, _, _, h => by simp at h
  | _ :: _, [], _, _, h => by simp at h
  | x :: xs, y :: ys, hx, hy, h => by
      simp only [List.map_cons, List.cons.injEq] at h
      have h1 := digitChar_inj_lt (hx x (by simp)) (hy y (by simp)) h.1
      have h2 := map_digitChar_inj xs ys (fun a ha => hx a (by simp [ha]))
        (fun a ha => hy a (by simp [ha])) h.2
      rw [h1, h2]

/-- Helper: the decimal rendering of a positive number is never `"0"`. -/
theorem digits_map_ne_zero_str {n : Nat} (hn : n ≠ 0)
    (h : (Nat.digits 10 n).map Nat.digitChar = ['0']) : False := by
  cases hdig : Nat.digits 10 n with
  | nil =>
      rw [hdig] at h
      simp at h
  | cons d rest =>
      rw [hdig] at h
      cases rest with
      | nil =>
          simp only [List.map_cons, List.map_nil, List.cons.injEq, and_true] at h
          have hdlt : d < 10 := Nat.digits_lt_base (by norm_num) (by rw [hdig]; simp)
          have hd0 : d = 0 := digitChar_inj_lt hdlt (by norm_num) h
          have h1 := Nat.ofDigits_digits 10 n
          rw [hdig, hd0] at h1
          apply hn
          simpa [Nat.ofDigits] using h1.symm
      | cons d2 rest2 => simp at h

/-- Helper: the decimal rendering is injective (Python's `str` on ints). -/
theorem pyStr_inj : ∀ {m n : Nat}, pyStr m = pyStr n → m = n := by
  intro m n h
  unfold pyStr at h
  by_cases hm : m = 0 <;> by_cases hn : n = 0
  · rw [hm, hn]
  · rw [if_pos hm, if_neg hn] at h
    exfalso
    refine digits_map_ne_zero_str hn ?_
    have := congrArg List.reverse h
    simpa using this.symm
  · rw [if_neg hm, if_pos hn] at h
    exfalso
    refine digits_map_ne_zero_str hm ?_
    have := congrArg List.reverse h
    simpa using this
  · rw [if_neg hm, if_neg hn] at h
    have hrev := congrArg List.reverse h
    simp only [List.reverse_reverse] at hrev
    have hdig := map_digitChar_inj _ _
      (fun x hx => Nat.digits_lt_base (by norm_num) hx)
      (fun x hx => Nat.digits_lt_base (by norm_num) hx) hrev
    calc m = Nat.ofDigits 10 (Nat.digits 10 m) := (Nat.ofDigits_digits 10 m).symm
      _ = Nat.ofDigits 10 (Nat.digits 10 n) := by rw [hdig]
      _ = n := Nat.ofDigits_digits 10 n

/-- Helper: appending after an underscore separator is injective when the
leading segments are underscore-free. -/
theorem append_underscore_inj : ∀ (a b r r' : List Char),
    (∀ c ∈ a, c ≠ '_') → (∀ c ∈ b, c ≠ '_') →
    a ++ '_' :: r = b ++ '_' :: r' → a = b ∧ r = r'
  | [], [], r, r', _, _, h => by simp_all
  | [], c :: b, r, r', _, hb, h => by
      simp only [List.nil_append, List.cons_append, List.cons.injEq] at h
      exact absurd h.1.symm (hb c (by simp))
  | c :: a, [], r, r', ha, _, h => by
      simp only [List.nil_append, List.cons_append, List.cons.injEq] at h
      exact absurd h.1 (ha c (by simp))
  | c :: a, c' :: b, r, r', ha, hb, h => by
      simp only [List.cons_append, List.cons.injEq] at h
      obtain ⟨h1, h2⟩ := h
      obtain ⟨ha2, hr⟩ := append_underscore_inj a b r r'
        (fun x hx => ha x (by simp [hx])) (fun x hx => hb x (by simp [hx])) h2
      exact ⟨by rw [h1, ha2], hr⟩

/-- Helper: the lease-id character string determines the generating
(wall-ms, pid, thread-ident) triple. -/
theorem leaseIdChars_inj {m p i m' p' i' : Nat}
    (h : leaseIdChars m p i = leaseIdChars m' p' i') : m = m' ∧ p = p' ∧ i = i' := by
  unfold leaseIdChars at h
  simp only [List.cons.injEq, true_and] at h
  obtain ⟨h1, h2⟩ := append_underscore_inj _ _ _ _ (pyStr_ne_underscore m)
    (pyStr_ne_underscore m') h
  obtain ⟨h3, h4⟩ := append_underscore_inj _ _ _ _ (pyStr_ne_underscore p)
    (pyStr_ne_underscore p') h2
  exact ⟨pyStr_inj h1, pyStr_inj h3, pyStr_inj h4⟩

/-- C8 counterexample: lease ids are a pure function of
(wall-clock millisecond, pid, thread ident). Two acquisitions sharing that
context — rapid re-acquisition within one millisecond handled on the same
connection thread — receive the very same id: the generated id list of
such a two-acquisition lifetime has a duplicate. -/
theorem c8_lease_id_counterexample :
    ¬ (acquireIds [(1700000000123, 4242, 139856),
                   (1700000000123, 4242, 139856)]).Nodup ∧
    (acquireIds [(1700000000123, 4242, 139856),
                 (1700000000123, 4242, 139856)]).length = 2 := by
  constructor
  · simp [acquireIds]
  · rfl

/-- C8 amended: a lease id equals another exactly when the generating
(wall-ms, pid, thread-ident) triples coincide; hence ids are pairwise
distinct across a daemon lifetime whenever no two acquisitions share
their full context triple — uniqueness holds only under that proviso. -/
theorem c8_lease_id_amended (ms pid tid ms' pid' tid' : Nat) :
    (leaseIdStr ms pid tid = leaseIdStr ms' pid' tid' ↔
      (ms = ms' ∧ pid = pid' ∧ tid = tid')) ∧
    (∀ ctxs : List (Nat × Nat × Nat), ctxs.Pairwise (· ≠ ·) → (acquireIds ctxs).Nodup) := by
  constructor
  · constructor
    · intro h
      have hc : leaseIdChars ms pid tid = leaseIdChars ms' pid' tid' := by
        have hdata := congrArg String.data h
        simpa [leaseIdStr] using hdata
      exact leaseIdChars_inj hc
    · rintro ⟨rfl, rfl, rfl⟩
      rfl
  · intro ctxs hp
    refine List.Pairwise.map _ ?_ hp
    intro a b hab h
    apply hab
    have hc : leaseIdChars a.1 a.2.1 a.2.2 = leaseIdChars b.1 b.2.1 b.2.2 := by
      have hdata := congrArg String.data h
      simpa [leaseIdStr] using hdata
    obtain ⟨h1, h2, h3⟩ := leaseIdChars_inj hc
    obtain ⟨a1, a2, a3⟩ := a
    obtain ⟨b1, b2, b3⟩ := b
    simp_all

/-- C8 amended witness: two acquisitions one millisecond apart (distinct
context triples) receive distinct ids: the id list has no duplicate. -/
theorem c8_lease_id_amended_witness :
    List.Pairwise (· ≠ ·)
      [((1700000000123 : Nat), (4242 : Nat), (139856 : Nat)),
       (1700000000124, 4242, 139856)] ∧
    (acquireIds [(1700000000123, 4242, 139856), (1700000000124, 4242, 139856)]).Nodup :=
  ⟨by decide, (c8_lease_id_amended 0 0 0 0 0 0).2 _ (by decide)⟩
